import Mathlib

/-!
# Taito E07-11 internal-ROM stub: verification development

Shallow embedding of the two internal-ROM read handlers of the repository:

* `taito_e07_device::internal_rom_r` (src/taito_e07.cpp), the primary responder;
* `taitojc_state::dangcurv_dsp_internal_rom_r` (src/taitojc_dangcurv_patch.cpp),
  the secondary responder, gated by `m_dsp_internal_rom_hack`;

of the host-driver routines `init_dangcurv`, `machine_start` and `machine_reset`
as functions on an explicit machine state, and of the two program memory maps
`taito_e07_internal_pgm` and `tms_program_map` as static tables of entries.

Addresses (`offs_t`) and returned words (`uint16_t`) are natural numbers; every
constant the handlers return is below `2 ^ 16`, so no wrap-around occurs.  The
diagnostic log written through `logerror` is an explicit list of lines that is
threaded through every read.
-/

namespace TaitoE07

/-! ## Diagnostic log -/

/-- One call of `logerror`: the format string and the single numeric argument
that is substituted into it. -/
structure LogLine where
  format : String
  arg : Nat
  deriving DecidableEq, Repr

/-- Format of the line written on the dead-loop workaround path
(src/taito_e07.cpp, line 158). -/
def dead_loop_format : String :=
  "Taito E07-11: Dead loop workaround at PC=%04X\n"

/-- Format of the line written on the generic fallback path
(src/taito_e07.cpp, line 180). -/
def unmapped_format : String :=
  "Taito E07-11: Unmapped internal ROM read at %04X (returning RET)\n"

/-- The log sink: `logerror` appends one line at the end of the log. -/
def logerror (log : List LogLine) (format : String) (arg : Nat) : List LogLine :=
  log ++ [LogLine.mk format arg]

/-! ## Primary responder (src/taito_e07.cpp) -/

/-- Embedding of `taito_e07_device::internal_rom_r`.  The device state touched by a
read is the diagnostic log only; the result is the returned word together with
the log after the call. -/
def internal_rom_r (log : List LogLine) (offset : Nat) : Nat × List LogLine :=
  if offset < 0x20 then
    match offset with
    | 0x0000 => (0xF495, log)
    | 0x0001 => (0x2000, log)
    | 0x0002 => (0xFC00, log)
    | 0x0003 => (0x0000, log)
    | 0x0004 => (0xFC00, log)
    | 0x0005 => (0x0000, log)
    | 0x0006 => (0xFC00, log)
    | 0x0007 => (0x0000, log)
    | 0x0008 => (0xFC00, log)
    | 0x0009 => (0x0000, log)
    | 0x000a => (0xFC00, log)
    | 0x000b => (0x0000, log)
    | 0x000c => (0xFC00, log)
    | 0x000d => (0x0000, log)
    | 0x000e => (0xFC00, log)
    | 0x000f => (0x0000, log)
    | 0x0010 => (0xFC00, log)
    | 0x0011 => (0x0000, log)
    | 0x0012 => (0xFC00, log)
    | 0x0013 => (0x0000, log)
    | 0x0014 => (0xFC00, log)
    | 0x0015 => (0x0000, log)
    | _ => (0xCE00, log)
  else if offset ≥ 0x205b ∧ offset ≤ 0x205c then
    (0x7F00, logerror log dead_loop_format offset)
  else
    let log1 :=
      if offset &&& 0x00ff = 0 then logerror log unmapped_format offset else log
    (0xCE00, log1)

/-! ## Secondary responder (src/taitojc_dangcurv_patch.cpp) -/

/-- Level of an input line (`CLEAR_LINE` / `ASSERT_LINE`). -/
inductive LineState where
  | CLEAR_LINE
  | ASSERT_LINE
  deriving DecidableEq, Repr

/-- The members of `taitojc_state` that the patch reads or writes, the DSP reset
input line, and the diagnostic log of the machine. -/
structure taitojc_state where
  m_dsp_internal_rom_hack : Bool
  m_has_dsp_hack : Bool
  m_first_dsp_reset : Bool
  m_mcu_comm_main : Nat
  m_mcu_comm_hc11 : Nat
  m_mcu_data_main : Nat
  m_mcu_data_hc11 : Nat
  m_dsp_rom_pos : Nat
  m_viewport_data : List Nat
  m_projection_data : List Nat
  m_intersection_data : List Nat
  dsp_reset_line : LineState
  log : List LogLine
  deriving DecidableEq, Repr

/-- Embedding of `taitojc_state::dangcurv_dsp_internal_rom_r`.  The result is the
returned word together with the machine state after the call. -/
def dangcurv_dsp_internal_rom_r (st : taitojc_state) (offset : Nat) :
    Nat × taitojc_state :=
  if !st.m_dsp_internal_rom_hack then
    (0xffff, st)
  else if offset < 0x20 then
    match offset with
    | 0x0000 => (0xF495, st)
    | 0x0001 => (0x2000, st)
    | 0x0002 => (0xF495, st)
    | 0x0003 => (0xFFFE, st)
    | 0x0004 => (0xF495, st)
    | 0x0005 => (0xFFFE, st)
    | _ => (0xCE00, st)
  else if offset ≥ 0x205b ∧ offset ≤ 0x205c then
    (0x7F00, st)
  else
    (0xCE00, st)

/-! ## Reading a run of consecutive addresses -/

/-- Log after reading `internal_rom_r` at the `n` consecutive addresses
`s, s + 1, ..., s + n - 1`, in this order, starting from the log `log`. -/
def sweep_internal_rom_r (log : List LogLine) (s : Nat) : Nat → List LogLine
  | 0 => log
  | n + 1 => sweep_internal_rom_r (internal_rom_r log s).2 (s + 1) n

/-! ## Sample machine states -/

/-- A machine state with every member at its zero value and the enable flag at
its in-class default `false` (src/taitojc_dangcurv_patch.cpp, line 13). -/
def state_flag_clear : taitojc_state where
  m_dsp_internal_rom_hack := false
  m_has_dsp_hack := false
  m_first_dsp_reset := false
  m_mcu_comm_main := 0
  m_mcu_comm_hc11 := 0
  m_mcu_data_main := 0
  m_mcu_data_hc11 := 0
  m_dsp_rom_pos := 0
  m_viewport_data := []
  m_projection_data := []
  m_intersection_data := []
  dsp_reset_line := LineState.ASSERT_LINE
  log := []

/-- The same machine state with the enable flag `m_dsp_internal_rom_hack` set. -/
def state_flag_set : taitojc_state :=
  { state_flag_clear with m_dsp_internal_rom_hack := true }

/-! ## Host-driver routines (src/taitojc_dangcurv_patch.cpp) -/

/-- Address space of the DSP on which a handler is installed. -/
inductive address_space where
  | AS_PROGRAM
  | AS_DATA
  deriving DecidableEq, Repr

/-- The handlers that `init_dangcurv` installs at run time. -/
inductive installed_handler where
  | read_taitojc_dsp_idle_skip_r
  | write_log_problematic_address
  deriving DecidableEq, Repr

/-- One call of `install_read_handler` / `install_write_handler`: the address
space, the inclusive address range and the handler. -/
structure handler_install where
  space : address_space
  addrstart : Nat
  addrend : Nat
  handler : installed_handler
  deriving DecidableEq, Repr

/-- Embedding of `taitojc_state::init_dangcurv`.  The compile-time constant
`DSP_IDLESKIP` is a parameter.  The result is the machine state after the call
together with the handler installations made on the address spaces of the DSP,
in program order. -/
def init_dangcurv (DSP_IDLESKIP : Bool) (st : taitojc_state) :
    taitojc_state × List handler_install :=
  let st1 := { st with m_dsp_internal_rom_hack := true }
  let st2 := { st1 with m_has_dsp_hack := true }
  let idle_skip :=
    if DSP_IDLESKIP then
      [handler_install.mk address_space.AS_DATA 0x7ff0 0x7ff0
        installed_handler.read_taitojc_dsp_idle_skip_r]
    else []
  (st2, idle_skip ++
    [handler_install.mk address_space.AS_PROGRAM 0x205c 0x205c
      installed_handler.write_log_problematic_address])

/-- Embedding of `taitojc_state::machine_start`.  Its only write to a member is
the assignment `m_dsp_internal_rom_hack = false`; the `save_item` registrations
and the `resolve()` calls on the output finders change no member. -/
def machine_start (st : taitojc_state) : taitojc_state :=
  { st with m_dsp_internal_rom_hack := false }

/-- The effect of `memset(data, 0, sizeof(data))` on an array member: every
element becomes 0 and the size of the array is kept. -/
def memset_zero (data : List Nat) : List Nat :=
  List.replicate data.length 0

/-- Embedding of `taitojc_state::machine_reset`. -/
def machine_reset (st : taitojc_state) : taitojc_state :=
  let st1 := { st with m_first_dsp_reset := true }
  let st2 := { st1 with
    m_mcu_comm_main := 0
    m_mcu_comm_hc11 := 0
    m_mcu_data_main := 0
    m_mcu_data_hc11 := 0 }
  let st3 := { st2 with m_dsp_rom_pos := 0 }
  let st4 := { st3 with
    m_viewport_data := memset_zero st3.m_viewport_data
    m_projection_data := memset_zero st3.m_projection_data
    m_intersection_data := memset_zero st3.m_intersection_data }
  if st4.m_dsp_internal_rom_hack then
    { st4 with dsp_reset_line := LineState.CLEAR_LINE }
  else
    { st4 with dsp_reset_line := LineState.ASSERT_LINE }

/-- Machine state after `n` further calls of `machine_reset`. -/
def machine_resets : Nat → taitojc_state → taitojc_state
  | 0, st => st
  | n + 1, st => machine_resets n (machine_reset st)

/-! ## Memory maps -/

/-- What an address-map entry routes its range to: one of the two read handlers,
or RAM (anonymous or shared under a tag). -/
inductive map_target where
  | r_internal_rom_r
  | r_dangcurv_dsp_internal_rom_r
  | ram
  | ram_share (tag : String)
  deriving DecidableEq, Repr

/-- One entry `map(addrstart, addrend)` of an address map, with its mirror mask
(0 when the entry has no `.mirror(...)`). -/
structure map_entry where
  addrstart : Nat
  addrend : Nat
  mirror : Nat
  target : map_target
  deriving DecidableEq, Repr

/-- Embedding of `taito_e07_device::taito_e07_internal_pgm`: the entries in
program order. -/
def taito_e07_internal_pgm : List map_entry :=
  [ map_entry.mk 0x0000 0x0fff 0 map_target.r_internal_rom_r,
    map_entry.mk 0x1000 0x1fff 0 map_target.ram,
    map_entry.mk 0x2000 0x23ff 0 (map_target.ram_share "saram"),
    map_entry.mk 0xfe00 0xffff 0 (map_target.ram_share "daram_b0") ]

/-- Embedding of `taitojc_state::tms_program_map`: the entries in program
order, for the value of `m_dsp_internal_rom_hack` in the machine state. -/
def tms_program_map (st : taitojc_state) : List map_entry :=
  (if st.m_dsp_internal_rom_hack then
    [ map_entry.mk 0x0000 0x0fff 0 map_target.r_dangcurv_dsp_internal_rom_r,
      map_entry.mk 0x1000 0x1fff 0 map_target.ram,
      map_entry.mk 0x2000 0x3fff 0 map_target.ram ]
  else
    [ map_entry.mk 0x0000 0x1fff 0x4000 map_target.ram ]) ++
  [ map_entry.mk 0x6000 0x7fff 0 map_target.ram ]

/-- Number of addresses of the range of an entry (both ends inclusive). -/
def map_entry.size (e : map_entry) : Nat :=
  e.addrend - e.addrstart + 1

/-- The address with the mirror bits of the entry cleared (`a & ~mirror`). -/
def map_entry.unmirrored (e : map_entry) (a : Nat) : Nat :=
  a - (a &&& e.mirror)

/-- Address dispatch of the host framework: an entry answers at address `a` when
`a`, with the mirror bits cleared, lies in the range of the entry. -/
def map_entry.covers (e : map_entry) (a : Nat) : Bool :=
  decide (e.addrstart ≤ e.unmirrored a ∧ e.unmirrored a ≤ e.addrend)

/-- The offset that the host framework passes to a handler: the address
relative to the start of the range of the entry. -/
def map_entry.handler_offset (e : map_entry) (a : Nat) : Nat :=
  e.unmirrored a - e.addrstart

/-- The entries of a map that answer at address `a`. -/
def entries_at (map : List map_entry) (a : Nat) : List map_entry :=
  map.filter (fun e => e.covers a)

/-! ## Basic facts about the primary responder -/

theorem internal_rom_r_generic (log : List LogLine) (a : Nat)
    (h20 : 0x20 ≤ a) (hdead : a < 0x205b ∨ 0x205c < a) :
    internal_rom_r log a =
      (0xCE00, if a &&& 0x00ff = 0 then logerror log unmapped_format a else log) := by
  unfold internal_rom_r
  have h1 : ¬ a < 0x20 := by omega
  have h2 : ¬ (a ≥ 0x205b ∧ a ≤ 0x205c) := by omega
  simp only [h1, h2, if_false]

theorem internal_rom_r_dead_loop (log : List LogLine) (a : Nat)
    (h : 0x205b ≤ a ∧ a ≤ 0x205c) :
    internal_rom_r log a = (0x7F00, logerror log dead_loop_format a) := by
  unfold internal_rom_r
  have h1 : ¬ a < 0x20 := by omega
  have h2 : a ≥ 0x205b ∧ a ≤ 0x205c := h
  simp only [h1, h2, if_false, if_true, and_self]

/-! ## Basic facts about the secondary responder -/

theorem dangcurv_disabled (st : taitojc_state) (a : Nat)
    (hflag : st.m_dsp_internal_rom_hack = false) :
    dangcurv_dsp_internal_rom_r st a = (0xffff, st) := by
  unfold dangcurv_dsp_internal_rom_r
  simp [hflag]

theorem dangcurv_dead_loop (st : taitojc_state) (a : Nat)
    (hflag : st.m_dsp_internal_rom_hack = true) (h : 0x205b ≤ a ∧ a ≤ 0x205c) :
    dangcurv_dsp_internal_rom_r st a = (0x7F00, st) := by
  unfold dangcurv_dsp_internal_rom_r
  have h1 : ¬ a < 0x20 := by omega
  have h2 : a ≥ 0x205b ∧ a ≤ 0x205c := h
  simp [hflag, h1, h2]

theorem dangcurv_generic (st : taitojc_state) (a : Nat)
    (hflag : st.m_dsp_internal_rom_hack = true)
    (h20 : 0x20 ≤ a) (hdead : a < 0x205b ∨ 0x205c < a) :
    dangcurv_dsp_internal_rom_r st a = (0xCE00, st) := by
  unfold dangcurv_dsp_internal_rom_r
  have h1 : ¬ a < 0x20 := by omega
  have h2 : ¬ (a ≥ 0x205b ∧ a ≤ 0x205c) := by omega
  simp [hflag, h1, h2]

/-- A read through the secondary responder never changes the machine state. -/
theorem dangcurv_state_unchanged (st : taitojc_state) (a : Nat) :
    (dangcurv_dsp_internal_rom_r st a).2 = st := by
  unfold dangcurv_dsp_internal_rom_r
  split
  · rfl
  · split
    · split <;> rfl
    · split <;> rfl

/-! ## Basic facts about sweeps of the primary responder -/

theorem low_byte_eq_mod (a : Nat) : a &&& 0x00ff = a % 256 :=
  Nat.and_pow_two_sub_one_eq_mod a 8

theorem internal_rom_r_logs (l : List LogLine) (a : Nat)
    (h20 : 0x20 ≤ a) (hdead : a < 0x205b ∨ 0x205c < a) (hlow : a % 256 = 0) :
    (internal_rom_r l a).2 = l ++ [LogLine.mk unmapped_format a] := by
  rw [internal_rom_r_generic l a h20 hdead]
  simp [low_byte_eq_mod, hlow, logerror]

theorem internal_rom_r_silent (l : List LogLine) (a : Nat)
    (h20 : 0x20 ≤ a) (hdead : a < 0x205b ∨ 0x205c < a) (hlow : a % 256 ≠ 0) :
    (internal_rom_r l a).2 = l := by
  rw [internal_rom_r_generic l a h20 hdead]
  simp [low_byte_eq_mod, hlow]

theorem sweep_add (m n : Nat) : ∀ (log : List LogLine) (s : Nat),
    sweep_internal_rom_r log s (m + n) =
      sweep_internal_rom_r (sweep_internal_rom_r log s m) (s + m) n := by
  induction m with
  | zero => intro log s; simp [sweep_internal_rom_r]
  | succ m ih =>
    intro log s
    have e : m + 1 + n = (m + n) + 1 := by omega
    rw [e]
    simp only [sweep_internal_rom_r]
    rw [ih]
    have e2 : s + 1 + m = s + (m + 1) := by omega
    rw [e2]

theorem sweep_one (log : List LogLine) (s : Nat) :
    sweep_internal_rom_r log s 1 = (internal_rom_r log s).2 := by
  simp [sweep_internal_rom_r]

theorem sweep_quiet (n : Nat) : ∀ (log : List LogLine) (s : Nat),
    0x20 ≤ s → (s + n ≤ 0x205b ∨ 0x205c < s) →
    (∀ i, i < n → (s + i) % 256 ≠ 0) →
    sweep_internal_rom_r log s n = log := by
  induction n with
  | zero => intro log s _ _ _; rfl
  | succ n ih =>
    intro log s h20 hdead hq
    simp only [sweep_internal_rom_r]
    have h0 : s % 256 ≠ 0 := by simpa using hq 0 (by omega)
    rw [internal_rom_r_silent log s h20 (by omega) h0]
    apply ih log (s + 1) (by omega) (by omega)
    intro i hi
    have := hq (i + 1) (by omega)
    have e : s + 1 + i = s + (i + 1) := by omega
    rw [e]
    exact this

/-! ## The returned word as a function of the address and the flag -/

/-- The word returned by the primary responder does not depend on the log. -/
theorem internal_rom_r_value_congr (l1 l2 : List LogLine) (a : Nat) :
    (internal_rom_r l1 a).1 = (internal_rom_r l2 a).1 := by
  by_cases h20 : a < 0x20
  · interval_cases a <;> simp [internal_rom_r]
  · by_cases hd : 0x205b ≤ a ∧ a ≤ 0x205c
    · rw [internal_rom_r_dead_loop l1 a hd, internal_rom_r_dead_loop l2 a hd]
    · rw [internal_rom_r_generic l1 a (by omega) (by omega),
        internal_rom_r_generic l2 a (by omega) (by omega)]

/-- The word returned by the secondary responder depends on the machine state
through the enable flag only. -/
theorem dangcurv_value_congr (st1 st2 : taitojc_state) (a : Nat)
    (h : st1.m_dsp_internal_rom_hack = st2.m_dsp_internal_rom_hack) :
    (dangcurv_dsp_internal_rom_r st1 a).1 = (dangcurv_dsp_internal_rom_r st2 a).1 := by
  cases hf : st2.m_dsp_internal_rom_hack with
  | false =>
    rw [dangcurv_disabled st1 a (h.trans hf), dangcurv_disabled st2 a hf]
  | true =>
    have hf1 : st1.m_dsp_internal_rom_hack = true := h.trans hf
    by_cases h20 : a < 0x20
    · interval_cases a <;> simp [dangcurv_dsp_internal_rom_r, hf, hf1]
    · by_cases hd : 0x205b ≤ a ∧ a ≤ 0x205c
      · rw [dangcurv_dead_loop st1 a hf1 hd, dangcurv_dead_loop st2 a hf hd]
      · rw [dangcurv_generic st1 a hf1 (by omega) (by omega),
          dangcurv_generic st2 a hf (by omega) (by omega)]

/-- Every word returned by the primary responder fits in 16 bits. -/
theorem internal_rom_r_value_lt (log : List LogLine) (a : Nat) :
    (internal_rom_r log a).1 < 2 ^ 16 := by
  by_cases h20 : a < 0x20
  · interval_cases a <;> simp [internal_rom_r]
  · by_cases hd : 0x205b ≤ a ∧ a ≤ 0x205c
    · rw [internal_rom_r_dead_loop log a hd]; norm_num
    · rw [internal_rom_r_generic log a (by omega) (by omega)]; norm_num

/-! ## Basic facts about the host-driver routines -/

theorem init_dangcurv_sets_flag (idle : Bool) (st : taitojc_state) :
    (init_dangcurv idle st).1.m_dsp_internal_rom_hack = true := rfl

theorem machine_start_clears_flag (st : taitojc_state) :
    (machine_start st).m_dsp_internal_rom_hack = false := rfl

theorem machine_reset_keeps_flag (st : taitojc_state) :
    (machine_reset st).m_dsp_internal_rom_hack = st.m_dsp_internal_rom_hack := by
  unfold machine_reset
  simp only
  split <;> rfl

theorem machine_resets_keep_flag (n : Nat) : ∀ st : taitojc_state,
    (machine_resets n st).m_dsp_internal_rom_hack = st.m_dsp_internal_rom_hack := by
  induction n with
  | zero => intro st; rfl
  | succ n ih =>
    intro st
    simp only [machine_resets]
    rw [ih, machine_reset_keeps_flag]

/-- Whatever the machine state before start-up, after `init_dangcurv`, the
subsequent `machine_start` and any number of resets, every read through the
secondary responder returns the sentinel. -/
theorem read_after_startup_is_sentinel (idle : Bool) (st : taitojc_state)
    (n a : Nat) :
    (dangcurv_dsp_internal_rom_r
      (machine_resets n (machine_start (init_dangcurv idle st).1)) a).1 = 0xFFFF := by
  rw [dangcurv_disabled _ a
    (by rw [machine_resets_keep_flag, machine_start_clears_flag])]

theorem memset_zero_length (data : List Nat) :
    (memset_zero data).length = data.length := by
  simp [memset_zero]

theorem memset_zero_all_zero (data : List Nat) :
    ∀ x ∈ memset_zero data, x = 0 := by
  intro x hx
  exact (List.mem_replicate.mp hx).2

/-! ## Basic facts about the memory maps -/

theorem covers_iff (e : map_entry) (a : Nat) :
    e.covers a = true ↔
      (e.addrstart ≤ a - (a &&& e.mirror) ∧ a - (a &&& e.mirror) ≤ e.addrend) := by
  simp [map_entry.covers, map_entry.unmirrored]

/-! ## Where the dead-loop branch is taken -/

theorem formats_differ : unmapped_format ≠ dead_loop_format := by decide

theorem internal_rom_r_vector_silent (log : List LogLine) (a : Nat) (h : a < 0x20) :
    (internal_rom_r log a).2 = log := by
  interval_cases a <;> simp [internal_rom_r]

theorem internal_rom_r_7F00_iff (log : List LogLine) (a : Nat) :
    (internal_rom_r log a).1 = 0x7F00 ↔ (a = 0x205B ∨ a = 0x205C) := by
  by_cases h20 : a < 0x20
  · interval_cases a <;> simp [internal_rom_r]
  · by_cases hd : 0x205b ≤ a ∧ a ≤ 0x205c
    · rw [internal_rom_r_dead_loop log a hd]
      simp only [true_iff]
      omega
    · rw [internal_rom_r_generic log a (by omega) (by omega)]
      simp only [show ((0xCE00 : Nat) = 0x7F00) = False from by simp, false_iff]
      omega

theorem dangcurv_7F00_iff (st : taitojc_state) (a : Nat)
    (hflag : st.m_dsp_internal_rom_hack = true) :
    (dangcurv_dsp_internal_rom_r st a).1 = 0x7F00 ↔ (a = 0x205B ∨ a = 0x205C) := by
  by_cases h20 : a < 0x20
  · interval_cases a <;> simp [dangcurv_dsp_internal_rom_r, hflag]
  · by_cases hd : 0x205b ≤ a ∧ a ≤ 0x205c
    · rw [dangcurv_dead_loop st a hflag hd]
      simp only [true_iff]
      omega
    · rw [dangcurv_generic st a hflag (by omega) (by omega)]
      simp only [show ((0xCE00 : Nat) = 0x7F00) = False from by simp, false_iff]
      omega

/-- Inside the window a read of the primary responder either leaves the log as
it is or appends the unmapped-read line of its address. -/
theorem internal_rom_r_window_log (log : List LogLine) (a : Nat) (ha : a ≤ 0x0FFF) :
    (internal_rom_r log a).2 = log ∨
    (internal_rom_r log a).2 = log ++ [LogLine.mk unmapped_format a] := by
  by_cases h20 : a < 0x20
  · exact Or.inl (internal_rom_r_vector_silent log a h20)
  · by_cases hlow : a % 256 = 0
    · exact Or.inr (internal_rom_r_logs log a (by omega) (by omega) hlow)
    · exact Or.inl (internal_rom_r_silent log a (by omega) (by omega) hlow)

/-! ## Claims -/

/-- C1: for every address `a` in `[0x0000, 0x001F]` the primary responder
`internal_rom_r` returns the literal vector table: `0x0000 -> 0xF495`,
`0x0001 -> 0x2000`, every even `a` in `0x0002..0x0014 -> 0xFC00`, every odd `a`
in `0x0003..0x0015 -> 0x0000`, and every `a` in `0x0016..0x001F -> 0xCE00`. -/
theorem internal_rom_r_vector_table (log : List LogLine) (a : Nat) (ha : a ≤ 0x1F) :
    (a = 0x0000 → (internal_rom_r log a).1 = 0xF495) ∧
    (a = 0x0001 → (internal_rom_r log a).1 = 0x2000) ∧
    (0x0002 ≤ a → a ≤ 0x0014 → a % 2 = 0 → (internal_rom_r log a).1 = 0xFC00) ∧
    (0x0003 ≤ a → a ≤ 0x0015 → a % 2 = 1 → (internal_rom_r log a).1 = 0x0000) ∧
    (0x0016 ≤ a → a ≤ 0x001F → (internal_rom_r log a).1 = 0xCE00) := by
  interval_cases a <;> simp [internal_rom_r]

/-- Witness of C1 at the timer interrupt slot `0x000A`. -/
theorem internal_rom_r_vector_table_witness :
    (0x000A : Nat) ≤ 0x1F ∧ (internal_rom_r [] 0x000A).1 = 0xFC00 :=
  ⟨by decide,
    (internal_rom_r_vector_table [] 0x000A (by decide)).2.2.1
      (by decide) (by decide) (by decide)⟩

/-- C2: for every address `a` in `[0x0020, 0x205A] ∪ [0x205D, 0x0FFF]` the primary
responder `internal_rom_r` returns `0xCE00`. -/
theorem internal_rom_r_fallback (log : List LogLine) (a : Nat)
    (ha : (0x0020 ≤ a ∧ a ≤ 0x205A) ∨ (0x205D ≤ a ∧ a ≤ 0x0FFF)) :
    (internal_rom_r log a).1 = 0xCE00 := by
  rw [internal_rom_r_generic log a (by omega) (by omega)]

/-- Witness of C2 at the last address before the dead-loop range. -/
theorem internal_rom_r_fallback_witness :
    (((0x0020 : Nat) ≤ 0x205A ∧ (0x205A : Nat) ≤ 0x205A) ∨
      ((0x205D : Nat) ≤ 0x205A ∧ (0x205A : Nat) ≤ 0x0FFF)) ∧
    (internal_rom_r [] 0x205A).1 = 0xCE00 :=
  ⟨Or.inl ⟨by decide, by decide⟩,
    internal_rom_r_fallback [] 0x205A (Or.inl ⟨by decide, by decide⟩)⟩

/-- C3: for every address `a` in the inclusive range `[0x205B, 0x205C]`, both the
primary responder `internal_rom_r` and the secondary responder
`dangcurv_dsp_internal_rom_r` with the enable flag set return `0x7F00`. -/
theorem dead_loop_range_returns_7F00 (log : List LogLine) (st : taitojc_state)
    (a : Nat) (hflag : st.m_dsp_internal_rom_hack = true)
    (ha : 0x205B ≤ a ∧ a ≤ 0x205C) :
    (internal_rom_r log a).1 = 0x7F00 ∧
    (dangcurv_dsp_internal_rom_r st a).1 = 0x7F00 := by
  constructor
  · rw [internal_rom_r_dead_loop log a ha]
  · rw [dangcurv_dead_loop st a hflag ha]

/-- Witness of C3 at `0x205C`, on a machine state with the flag set. -/
theorem dead_loop_range_returns_7F00_witness :
    state_flag_set.m_dsp_internal_rom_hack = true ∧
    ((0x205B : Nat) ≤ 0x205C ∧ (0x205C : Nat) ≤ 0x205C) ∧
    (internal_rom_r [] 0x205C).1 = 0x7F00 ∧
    (dangcurv_dsp_internal_rom_r state_flag_set 0x205C).1 = 0x7F00 :=
  ⟨rfl, ⟨by decide, by decide⟩,
    dead_loop_range_returns_7F00 [] state_flag_set 0x205C rfl ⟨by decide, by decide⟩⟩

/-- C4: when the enable flag `m_dsp_internal_rom_hack` is false,
`dangcurv_dsp_internal_rom_r` returns the sentinel `0xFFFF` for every address,
unconditionally: the flag check has priority over the vector table
(`a < 0x20`) and over the dead-loop range `[0x205B, 0x205C]`. -/
theorem dangcurv_disabled_returns_sentinel (st : taitojc_state) (a : Nat)
    (hflag : st.m_dsp_internal_rom_hack = false) :
    (dangcurv_dsp_internal_rom_r st a).1 = 0xFFFF := by
  rw [dangcurv_disabled st a hflag]

/-- Witness of C4 inside the dead-loop range, on a machine state with the flag
clear. -/
theorem dangcurv_disabled_returns_sentinel_witness :
    state_flag_clear.m_dsp_internal_rom_hack = false ∧
    (dangcurv_dsp_internal_rom_r state_flag_clear 0x205B).1 = 0xFFFF :=
  ⟨rfl, dangcurv_disabled_returns_sentinel state_flag_clear 0x205B rfl⟩

/-- C5, counterexample: with the enable flag set the secondary responder does not
follow the `0xF495`/`0xFFFE` pattern at every even address of `0x0002..0x0014`;
at the slot pair `0x0006`/`0x0007` (external interrupt 2) it returns `0xCE00`
twice. -/
theorem secondary_int2_slot_breaks_pattern :
    (dangcurv_dsp_internal_rom_r state_flag_set 0x0006).1 = 0xCE00 ∧
    (dangcurv_dsp_internal_rom_r state_flag_set 0x0007).1 = 0xCE00 ∧
    ¬ (∀ (st : taitojc_state) (a : Nat), st.m_dsp_internal_rom_hack = true →
        0x0002 ≤ a → a ≤ 0x0014 → a % 2 = 0 →
        (dangcurv_dsp_internal_rom_r st a).1 = 0xF495 ∧
        (dangcurv_dsp_internal_rom_r st (a + 1)).1 = 0xFFFE) := by
  refine ⟨rfl, rfl, ?_⟩
  intro h
  have h6 := (h state_flag_set 0x0006 rfl (by decide) (by decide) (by decide)).1
  have hce : (dangcurv_dsp_internal_rom_r state_flag_set 0x0006).1 = 0xCE00 := rfl
  rw [hce] at h6
  exact absurd h6 (by decide)

/-- C5, amended: with the enable flag set, the slot pairs of the software
interrupt and of external interrupt 1 follow the `0xF495`/`0xFFFE` pattern (for
every even `a` in `0x0002..0x0004` the read at `a` is `0xF495` and the read at
`a + 1` is `0xFFFE`), and every address in `0x0006..0x001F` reads `0xCE00`. -/
theorem dangcurv_vector_pattern (st : taitojc_state) (a : Nat)
    (hflag : st.m_dsp_internal_rom_hack = true) :
    (0x0002 ≤ a → a ≤ 0x0004 → a % 2 = 0 →
      (dangcurv_dsp_internal_rom_r st a).1 = 0xF495 ∧
      (dangcurv_dsp_internal_rom_r st (a + 1)).1 = 0xFFFE) ∧
    (0x0006 ≤ a → a ≤ 0x001F → (dangcurv_dsp_internal_rom_r st a).1 = 0xCE00) := by
  constructor
  · intro h2 h4 hev
    interval_cases a <;> simp [dangcurv_dsp_internal_rom_r, hflag] at hev ⊢
  · intro h6 h1f
    interval_cases a <;> simp [dangcurv_dsp_internal_rom_r, hflag]

/-- Witness of the amended C5 at the slot pair of external interrupt 1. -/
theorem dangcurv_vector_pattern_witness :
    state_flag_set.m_dsp_internal_rom_hack = true ∧
    (dangcurv_dsp_internal_rom_r state_flag_set 0x0004).1 = 0xF495 ∧
    (dangcurv_dsp_internal_rom_r state_flag_set 0x0005).1 = 0xFFFE :=
  ⟨rfl, (dangcurv_vector_pattern state_flag_set 0x0004 rfl).1
    (by decide) (by decide) (by decide)⟩

/-- C6: logging throttle of the primary responder.  For every start address `s`
such that none of the 512 consecutive addresses `s..s+511` is a special case
(all are at least `0x0020` and none is `0x205B` or `0x205C`), reading
`internal_rom_r` at all 512 addresses emits exactly 2 log lines in total, and
they are emitted at exactly the two addresses whose low byte is `0x00`: a read
on the generic fallback path logs if and only if `(a & 0xFF) == 0`. -/
theorem internal_rom_r_log_throttle (log : List LogLine) (s : Nat)
    (h20 : 0x0020 ≤ s) (hdead : s + 511 < 0x205B ∨ 0x205C < s) :
    (sweep_internal_rom_r log s 512).length = log.length + 2 ∧
    (∃ a, s ≤ a ∧ a + 256 ≤ s + 511 ∧
      (∀ i, i < 512 → ((s + i) &&& 0x00ff = 0 ↔ (s + i = a ∨ s + i = a + 256))) ∧
      sweep_internal_rom_r log s 512 =
        log ++ [LogLine.mk unmapped_format a, LogLine.mk unmapped_format (a + 256)]) ∧
    (∀ i, i < 512 → ∀ l : List LogLine,
      ((s + i) &&& 0x00ff = 0 →
        (internal_rom_r l (s + i)).2 = l ++ [LogLine.mk unmapped_format (s + i)]) ∧
      ((s + i) &&& 0x00ff ≠ 0 → (internal_rom_r l (s + i)).2 = l)) := by
  obtain ⟨d, hd, hk⟩ : ∃ d, d ≤ 255 ∧ (s + d) % 256 = 0 :=
    ⟨256 * ((s + 255) / 256) - s, by omega, by omega⟩
  have hsweep : sweep_internal_rom_r log s 512 =
      log ++ [LogLine.mk unmapped_format (s + d),
        LogLine.mk unmapped_format (s + d + 256)] := by
    have e : 512 = d + (1 + (255 + (1 + (255 - d)))) := by omega
    rw [e, sweep_add, sweep_quiet d log s h20 (by omega) (by intro i hi; omega),
      sweep_add, sweep_one, internal_rom_r_logs log (s + d) (by omega) (by omega) hk,
      sweep_add,
      sweep_quiet 255 _ (s + d + 1) (by omega) (by omega) (by intro i hi; omega),
      sweep_add, sweep_one,
      internal_rom_r_logs _ (s + d + 1 + 255) (by omega) (by omega) (by omega),
      sweep_quiet (255 - d) _ (s + d + 1 + 255 + 1) (by omega) (by omega)
        (by intro i hi; omega)]
    have e3 : s + d + 1 + 255 = s + d + 256 := by omega
    rw [e3]
    simp
  refine ⟨?_, ⟨s + d, by omega, by omega, ?_, hsweep⟩, ?_⟩
  · rw [hsweep]; simp
  · intro i hi
    rw [low_byte_eq_mod]
    omega
  · intro i hi l
    rw [low_byte_eq_mod]
    exact ⟨fun h => internal_rom_r_logs l (s + i) (by omega) (by omega) h,
      fun h => internal_rom_r_silent l (s + i) (by omega) (by omega) h⟩

/-- Witness of C6 for the window `0x0020..0x021F`, starting from the empty log. -/
theorem internal_rom_r_log_throttle_witness :
    (0x0020 : Nat) ≤ 0x0020 ∧
    ((0x0020 : Nat) + 511 < 0x205B ∨ (0x205C : Nat) < 0x0020) ∧
    (sweep_internal_rom_r [] 0x0020 512).length = ([] : List LogLine).length + 2 :=
  ⟨by decide, Or.inl (by decide),
    (internal_rom_r_log_throttle [] 0x0020 (by decide) (Or.inl (by decide))).1⟩

/-- C7, counterexample: a read of the enabled secondary responder at `0x205B`
emits no log line at all: the log after the read is the log before it, so it is
not the earlier log extended by one line. -/
theorem secondary_dead_loop_read_is_silent :
    state_flag_set.m_dsp_internal_rom_hack = true ∧
    (dangcurv_dsp_internal_rom_r state_flag_set 0x205B).1 = 0x7F00 ∧
    (dangcurv_dsp_internal_rom_r state_flag_set 0x205B).2.log = state_flag_set.log ∧
    ¬ (∃ line : LogLine,
        (dangcurv_dsp_internal_rom_r state_flag_set 0x205B).2.log =
          state_flag_set.log ++ [line]) := by
  refine ⟨rfl, rfl, rfl, ?_⟩
  rintro ⟨line, h⟩
  rw [dangcurv_state_unchanged] at h
  have hl := congrArg List.length h
  simp at hl

/-- C7, amended: every read of the primary responder `internal_rom_r` at an
address in `[0x205B, 0x205C]` emits exactly one diagnostic log line, the
dead-loop line carrying the triggering address, whatever the low byte of the
address and whatever the earlier log; a read of the secondary responder
`dangcurv_dsp_internal_rom_r` at such an address emits no log line, with the
enable flag set or clear. -/
theorem dead_loop_logging (log : List LogLine) (st : taitojc_state) (a : Nat)
    (ha : 0x205B ≤ a ∧ a ≤ 0x205C) :
    (internal_rom_r log a).2 = log ++ [LogLine.mk dead_loop_format a] ∧
    (dangcurv_dsp_internal_rom_r st a).2.log = st.log := by
  constructor
  · rw [internal_rom_r_dead_loop log a ha]; rfl
  · rw [dangcurv_state_unchanged]

/-- Witness of the amended C7 at `0x205B`, after one earlier read of the same
address. -/
theorem dead_loop_logging_witness :
    ((0x205B : Nat) ≤ 0x205B ∧ (0x205B : Nat) ≤ 0x205C) ∧
    (internal_rom_r [LogLine.mk dead_loop_format 0x205B] 0x205B).2 =
      [LogLine.mk dead_loop_format 0x205B] ++ [LogLine.mk dead_loop_format 0x205B] ∧
    (dangcurv_dsp_internal_rom_r state_flag_set 0x205B).2.log = state_flag_set.log :=
  ⟨⟨by decide, by decide⟩,
    dead_loop_logging [LogLine.mk dead_loop_format 0x205B] state_flag_set 0x205B
      ⟨by decide, by decide⟩⟩

/-- C8: reserved slots and table boundary.  For every address `a` in
`0x0016..0x001F` both responders (the secondary with the flag set) return
`0xCE00`; in particular they do so at `0x001F`, the last reserved vector slot,
and they also return `0xCE00` at `0x0020`, the first address past the vector
table. -/
theorem reserved_slots_and_boundary (log : List LogLine) (st : taitojc_state)
    (a : Nat) (hflag : st.m_dsp_internal_rom_hack = true) :
    (0x0016 ≤ a → a ≤ 0x001F →
      (internal_rom_r log a).1 = 0xCE00 ∧
      (dangcurv_dsp_internal_rom_r st a).1 = 0xCE00) ∧
    ((internal_rom_r log 0x001F).1 = 0xCE00 ∧
      (dangcurv_dsp_internal_rom_r st 0x001F).1 = 0xCE00) ∧
    ((internal_rom_r log 0x0020).1 = 0xCE00 ∧
      (dangcurv_dsp_internal_rom_r st 0x0020).1 = 0xCE00) := by
  refine ⟨?_, ⟨?_, ?_⟩, ⟨?_, ?_⟩⟩
  · intro h16 h1f
    interval_cases a <;> simp [internal_rom_r, dangcurv_dsp_internal_rom_r, hflag]
  · simp [internal_rom_r]
  · simp [dangcurv_dsp_internal_rom_r, hflag]
  · rw [internal_rom_r_generic log 0x0020 (by decide) (Or.inl (by decide))]
  · rw [dangcurv_generic st 0x0020 hflag (by decide) (Or.inl (by decide))]

/-- Witness of C8 at the first reserved slot `0x0016`. -/
theorem reserved_slots_and_boundary_witness :
    state_flag_set.m_dsp_internal_rom_hack = true ∧
    (internal_rom_r [] 0x0016).1 = 0xCE00 ∧
    (dangcurv_dsp_internal_rom_r state_flag_set 0x0016).1 = 0xCE00 :=
  ⟨rfl, (reserved_slots_and_boundary [] state_flag_set 0x0016 rfl).1
    (by decide) (by decide)⟩

/-- C9: the primary responder is total over the full 16-bit address domain with
no error result: for every address `a` in `[0x0000, 0xFFFF]`, also outside the
4096-word window, `internal_rom_r` returns a word, which fits in 16 bits, and
for every `a` in `[0x205D, 0xFFFF]` that word is the generic fallback `0xCE00`. -/
theorem internal_rom_r_total (log : List LogLine) (a : Nat) (ha : a ≤ 0xFFFF) :
    ∃ w : Nat, (internal_rom_r log a).1 = w ∧ w < 2 ^ 16 ∧
      (0x205D ≤ a → w = 0xCE00) := by
  refine ⟨(internal_rom_r log a).1, rfl, internal_rom_r_value_lt log a, ?_⟩
  intro h
  rw [internal_rom_r_generic log a (by omega) (by omega)]

/-- Witness of C9 at the top of the 16-bit address domain. -/
theorem internal_rom_r_total_witness :
    (0xFFFF : Nat) ≤ 0xFFFF ∧
    ∃ w : Nat, (internal_rom_r [] 0xFFFF).1 = w ∧ w < 2 ^ 16 ∧
      ((0x205D : Nat) ≤ 0xFFFF → w = 0xCE00) :=
  ⟨by decide, internal_rom_r_total [] 0xFFFF (by decide)⟩

/-- C10: determinism and purity of the returned value.  For every address `a`
and flag value, two successive reads return identical values, the value depends
only on the address and the enable flag (two machine states with the same flag,
or two logs, give the same word, whatever reads came before), and a read leaves
the enable flag unchanged. -/
theorem read_value_deterministic (st1 st2 : taitojc_state)
    (log1 log2 : List LogLine) (a : Nat)
    (hflag : st1.m_dsp_internal_rom_hack = st2.m_dsp_internal_rom_hack) :
    (dangcurv_dsp_internal_rom_r st1 a).1 = (dangcurv_dsp_internal_rom_r st2 a).1 ∧
    (internal_rom_r log1 a).1 = (internal_rom_r log2 a).1 ∧
    (dangcurv_dsp_internal_rom_r (dangcurv_dsp_internal_rom_r st1 a).2 a).1 =
      (dangcurv_dsp_internal_rom_r st1 a).1 ∧
    (internal_rom_r (internal_rom_r log1 a).2 a).1 = (internal_rom_r log1 a).1 ∧
    (dangcurv_dsp_internal_rom_r st1 a).2.m_dsp_internal_rom_hack =
      st1.m_dsp_internal_rom_hack := by
  refine ⟨dangcurv_value_congr st1 st2 a hflag, internal_rom_r_value_congr log1 log2 a,
    ?_, internal_rom_r_value_congr _ log1 a, ?_⟩
  · rw [dangcurv_state_unchanged]
  · rw [dangcurv_state_unchanged]

/-- Witness of C10: two machine states with the flag set and different logs,
read at the logging address `0x0100`. -/
theorem read_value_deterministic_witness :
    state_flag_set.m_dsp_internal_rom_hack =
      ({ state_flag_set with log := [LogLine.mk unmapped_format 0x0100] } :
        taitojc_state).m_dsp_internal_rom_hack ∧
    (dangcurv_dsp_internal_rom_r state_flag_set 0x0100).1 =
      (dangcurv_dsp_internal_rom_r
        { state_flag_set with log := [LogLine.mk unmapped_format 0x0100] } 0x0100).1 ∧
    (internal_rom_r [] 0x0100).1 =
      (internal_rom_r [LogLine.mk unmapped_format 0x0100] 0x0100).1 :=
  ⟨rfl,
    (read_value_deterministic state_flag_set
      { state_flag_set with log := [LogLine.mk unmapped_format 0x0100] }
      [] [LogLine.mk unmapped_format 0x0100] 0x0100 rfl).1,
    (read_value_deterministic state_flag_set
      { state_flag_set with log := [LogLine.mk unmapped_format 0x0100] }
      [] [LogLine.mk unmapped_format 0x0100] 0x0100 rfl).2.1⟩

/-- C11, evaluation of the code at the failing input: starting from the
power-on state (flag `false` by default), `init_dangcurv` sets the enable flag,
but the subsequent `machine_start` clears it again and `machine_reset` keeps it
clear; the DSP is held in reset and the read of the reset vector through
`dangcurv_dsp_internal_rom_r` returns the sentinel `0xFFFF`, not the stub word
`0xF495`. -/
theorem startup_sequence_clears_enable_flag :
    state_flag_clear.m_dsp_internal_rom_hack = false ∧
    (init_dangcurv true state_flag_clear).1.m_dsp_internal_rom_hack = true ∧
    (machine_start (init_dangcurv true state_flag_clear).1).m_dsp_internal_rom_hack
      = false ∧
    (machine_reset
      (machine_start (init_dangcurv true state_flag_clear).1)).m_dsp_internal_rom_hack
      = false ∧
    (machine_reset
      (machine_start (init_dangcurv true state_flag_clear).1)).dsp_reset_line
      = LineState.ASSERT_LINE ∧
    (dangcurv_dsp_internal_rom_r
      (machine_reset (machine_start (init_dangcurv true state_flag_clear).1))
      0x0000).1 = 0xFFFF ∧
    (dangcurv_dsp_internal_rom_r
      (machine_reset (init_dangcurv true state_flag_clear).1) 0x0000).1 = 0xF495 := by
  refine ⟨rfl, rfl, rfl, rfl, rfl, rfl, rfl⟩

/-- C12: `machine_reset` on explicit machine state.  The DSP reset line is
released (`CLEAR_LINE`) if and only if the enable flag `m_dsp_internal_rom_hack`
is true, and is held asserted (`ASSERT_LINE`) otherwise; in both cases the reset
sets `m_first_dsp_reset` to true, zeroes the four MCU communication fields,
`m_dsp_rom_pos` and the viewport, projection and intersection data (every
element 0, array sizes kept), and leaves the enable flag itself unchanged. -/
theorem machine_reset_effect (st : taitojc_state) :
    ((machine_reset st).dsp_reset_line = LineState.CLEAR_LINE ↔
      st.m_dsp_internal_rom_hack = true) ∧
    ((machine_reset st).dsp_reset_line = LineState.ASSERT_LINE ↔
      st.m_dsp_internal_rom_hack = false) ∧
    (machine_reset st).m_first_dsp_reset = true ∧
    (machine_reset st).m_mcu_comm_main = 0 ∧
    (machine_reset st).m_mcu_comm_hc11 = 0 ∧
    (machine_reset st).m_mcu_data_main = 0 ∧
    (machine_reset st).m_mcu_data_hc11 = 0 ∧
    (machine_reset st).m_dsp_rom_pos = 0 ∧
    ((machine_reset st).m_viewport_data.length = st.m_viewport_data.length ∧
      ∀ x ∈ (machine_reset st).m_viewport_data, x = 0) ∧
    ((machine_reset st).m_projection_data.length = st.m_projection_data.length ∧
      ∀ x ∈ (machine_reset st).m_projection_data, x = 0) ∧
    ((machine_reset st).m_intersection_data.length = st.m_intersection_data.length ∧
      ∀ x ∈ (machine_reset st).m_intersection_data, x = 0) ∧
    (machine_reset st).m_dsp_internal_rom_hack = st.m_dsp_internal_rom_hack := by
  cases hf : st.m_dsp_internal_rom_hack <;>
    simp [machine_reset, hf, memset_zero_length] <;>
    exact ⟨memset_zero_all_zero _, memset_zero_all_zero _, memset_zero_all_zero _⟩

/-- C13: memory-map registration of the primary device as a static table.  The
responder is installed on exactly `[0x0000, 0x0FFF]` (4096 entries), the
writable work RAM occupies `[0x1000, 0x1FFF]` and so starts immediately above
the window (`0x0FFF + 1`), the on-chip banks sit at `[0x2000, 0x23FF]` (1024
words) and `[0xFE00, 0xFFFF]` (512 words), and the four ranges are pairwise
disjoint, so every address is dispatched to at most one entry. -/
theorem taito_e07_internal_pgm_layout :
    (∀ a, (∃ e ∈ taito_e07_internal_pgm,
        e.target = map_target.r_internal_rom_r ∧ e.covers a = true) ↔ a ≤ 0x0FFF) ∧
    (∀ a, (∃ e ∈ taito_e07_internal_pgm,
        e.target = map_target.ram ∧ e.covers a = true) ↔
          (0x0FFF + 1 ≤ a ∧ a ≤ 0x1FFF)) ∧
    (∀ a, (∃ e ∈ taito_e07_internal_pgm,
        e.target = map_target.ram_share "saram" ∧ e.covers a = true) ↔
          (0x2000 ≤ a ∧ a ≤ 0x23FF)) ∧
    (∀ a, (∃ e ∈ taito_e07_internal_pgm,
        e.target = map_target.ram_share "daram_b0" ∧ e.covers a = true) ↔
          (0xFE00 ≤ a ∧ a ≤ 0xFFFF)) ∧
    taito_e07_internal_pgm.map map_entry.size = [4096, 4096, 1024, 512] ∧
    List.Pairwise (fun e1 e2 => ∀ a, ¬ (e1.covers a = true ∧ e2.covers a = true))
      taito_e07_internal_pgm ∧
    (∀ a, (entries_at taito_e07_internal_pgm a).length ≤ 1) := by
  refine ⟨?_, ?_, ?_, ?_, ?_, ?_, ?_⟩
  · intro a
    simp [taito_e07_internal_pgm, covers_iff]
  · intro a
    simp [taito_e07_internal_pgm, covers_iff]
  · intro a
    simp [taito_e07_internal_pgm, covers_iff]
  · intro a
    simp [taito_e07_internal_pgm, covers_iff]
  · simp [taito_e07_internal_pgm, map_entry.size]
  · simp only [taito_e07_internal_pgm, List.pairwise_cons, List.mem_cons,
      List.mem_singleton, covers_iff]
    simp
    refine ⟨⟨?_, ?_, ?_⟩, ⟨?_, ?_⟩, ?_⟩ <;> intro a <;> omega
  · intro a
    simp only [entries_at, taito_e07_internal_pgm, List.filter_cons, List.filter_nil,
      covers_iff, Nat.and_zero, Nat.sub_zero]
    split_ifs <;> simp <;> omega

/-- C14: the dead-loop workaround is unreachable through the installed window.
For every address `a` in the mapped range `[0x0000, 0x0FFF]`, neither
`internal_rom_r` nor the enabled `dangcurv_dsp_internal_rom_r` returns `0x7F00`
or emits the dead-loop log line; the `0x7F00` branch is taken for the offsets
`0x205B` and `0x205C` only, which both memory maps route to RAM rather than to
the responder: an address that a map routes to a responder is at most `0x0FFF`
and is passed on unchanged as the offset. -/
theorem dead_loop_branch_unreachable (log : List LogLine) (st : taitojc_state)
    (a : Nat) (hflag : st.m_dsp_internal_rom_hack = true) (ha : a ≤ 0x0FFF) :
    (internal_rom_r log a).1 ≠ 0x7F00 ∧
    (∀ x, (internal_rom_r log a).2 ≠ log ++ [LogLine.mk dead_loop_format x]) ∧
    (dangcurv_dsp_internal_rom_r st a).1 ≠ 0x7F00 ∧
    (dangcurv_dsp_internal_rom_r st a).2.log = st.log ∧
    (∀ (l : List LogLine) (b : Nat),
      (internal_rom_r l b).1 = 0x7F00 ↔ (b = 0x205B ∨ b = 0x205C)) ∧
    (∀ b : Nat,
      (dangcurv_dsp_internal_rom_r st b).1 = 0x7F00 ↔ (b = 0x205B ∨ b = 0x205C)) ∧
    (entries_at taito_e07_internal_pgm 0x205B =
        [map_entry.mk 0x2000 0x23ff 0 (map_target.ram_share "saram")] ∧
      entries_at taito_e07_internal_pgm 0x205C =
        [map_entry.mk 0x2000 0x23ff 0 (map_target.ram_share "saram")]) ∧
    (entries_at (tms_program_map st) 0x205B =
        [map_entry.mk 0x2000 0x3fff 0 map_target.ram] ∧
      entries_at (tms_program_map st) 0x205C =
        [map_entry.mk 0x2000 0x3fff 0 map_target.ram]) ∧
    (∀ (b : Nat) (e : map_entry), e ∈ entries_at taito_e07_internal_pgm b →
      e.target = map_target.r_internal_rom_r →
      e.handler_offset b = b ∧ b ≤ 0x0FFF) ∧
    (∀ (b : Nat) (e : map_entry), e ∈ entries_at (tms_program_map st) b →
      e.target = map_target.r_dangcurv_dsp_internal_rom_r →
      e.handler_offset b = b ∧ b ≤ 0x0FFF) := by
  refine ⟨?_, ?_, ?_, ?_, ?_, ?_, ⟨?_, ?_⟩, ⟨?_, ?_⟩, ?_, ?_⟩
  · intro h
    have := (internal_rom_r_7F00_iff log a).mp h
    omega
  · intro x h
    rcases internal_rom_r_window_log log a ha with h1 | h1
    · rw [h1] at h
      have hl := congrArg List.length h
      simp at hl
    · rw [h1] at h
      have h2 := List.append_cancel_left h
      simp only [List.cons.injEq, LogLine.mk.injEq, and_true] at h2
      exact formats_differ h2.1
  · intro h
    have := (dangcurv_7F00_iff st a hflag).mp h
    omega
  · rw [dangcurv_state_unchanged]
  · intro l b
    exact internal_rom_r_7F00_iff l b
  · intro b
    exact dangcurv_7F00_iff st b hflag
  · rfl
  · rfl
  · simp [entries_at, tms_program_map, hflag, covers_iff]
  · simp [entries_at, tms_program_map, hflag, covers_iff]
  · intro b e he ht
    simp only [entries_at, taito_e07_internal_pgm, List.mem_filter, List.mem_cons,
      List.mem_singleton, List.not_mem_nil, or_false] at he
    rcases he with ⟨he | he | he | he, hc⟩ <;> subst he <;>
      simp [covers_iff, map_entry.handler_offset, map_entry.unmirrored] at ht hc ⊢
    exact hc
  · intro b e he ht
    simp only [entries_at, tms_program_map, hflag, if_true, List.cons_append,
      List.nil_append, List.mem_filter, List.mem_cons, List.mem_singleton,
      List.not_mem_nil, or_false] at he
    rcases he with ⟨he | he | he | he, hc⟩ <;> subst he <;>
      simp [covers_iff, map_entry.handler_offset, map_entry.unmirrored] at ht hc ⊢
    exact hc

/-- Witness of C14 at the top of the window, on a machine state with the flag
set. -/
theorem dead_loop_branch_unreachable_witness :
    state_flag_set.m_dsp_internal_rom_hack = true ∧ (0x0FFF : Nat) ≤ 0x0FFF ∧
    (internal_rom_r [] 0x0FFF).1 ≠ 0x7F00 ∧
    (∀ x, (internal_rom_r [] 0x0FFF).2 ≠ [] ++ [LogLine.mk dead_loop_format x]) ∧
    (dangcurv_dsp_internal_rom_r state_flag_set 0x0FFF).1 ≠ 0x7F00 ∧
    (dangcurv_dsp_internal_rom_r state_flag_set 0x0FFF).2.log = state_flag_set.log :=
  ⟨rfl, by decide,
    (dead_loop_branch_unreachable [] state_flag_set 0x0FFF rfl (by decide)).1,
    (dead_loop_branch_unreachable [] state_flag_set 0x0FFF rfl (by decide)).2.1,
    (dead_loop_branch_unreachable [] state_flag_set 0x0FFF rfl (by decide)).2.2.1,
    (dead_loop_branch_unreachable [] state_flag_set 0x0FFF rfl (by decide)).2.2.2.1⟩

/-- C15: relation between the returned values of the two variants.  For every
address `a` outside `0x0002..0x0015` the primary `internal_rom_r` and the
enabled secondary `dangcurv_dsp_internal_rom_r` return the same word, and for
every address `a` inside `0x0002..0x0015` they return different words. -/
theorem variants_agree_outside_interrupt_slots (log : List LogLine)
    (st : taitojc_state) (a : Nat) (hflag : st.m_dsp_internal_rom_hack = true) :
    ((a < 0x0002 ∨ 0x0015 < a) →
      (internal_rom_r log a).1 = (dangcurv_dsp_internal_rom_r st a).1) ∧
    ((0x0002 ≤ a ∧ a ≤ 0x0015) →
      (internal_rom_r log a).1 ≠ (dangcurv_dsp_internal_rom_r st a).1) := by
  constructor
  · intro hout
    by_cases h20 : a < 0x20
    · interval_cases a <;>
        simp [internal_rom_r, dangcurv_dsp_internal_rom_r, hflag] at hout ⊢
    · by_cases hd : 0x205b ≤ a ∧ a ≤ 0x205c
      · rw [internal_rom_r_dead_loop log a hd, dangcurv_dead_loop st a hflag hd]
      · rw [internal_rom_r_generic log a (by omega) (by omega),
          dangcurv_generic st a hflag (by omega) (by omega)]
  · rintro ⟨h2, h15⟩
    interval_cases a <;> simp [internal_rom_r, dangcurv_dsp_internal_rom_r, hflag]

/-- Witness of C15: the two variants agree at `0x0016` and differ at `0x0015`. -/
theorem variants_agree_outside_interrupt_slots_witness :
    state_flag_set.m_dsp_internal_rom_hack = true ∧
    (internal_rom_r [] 0x0016).1 =
      (dangcurv_dsp_internal_rom_r state_flag_set 0x0016).1 ∧
    (internal_rom_r [] 0x0015).1 ≠
      (dangcurv_dsp_internal_rom_r state_flag_set 0x0015).1 :=
  ⟨rfl,
    (variants_agree_outside_interrupt_slots [] state_flag_set 0x0016 rfl).1
      (Or.inr (by decide)),
    (variants_agree_outside_interrupt_slots [] state_flag_set 0x0015 rfl).2
      ⟨by decide, by decide⟩⟩

end TaitoE07
